import Mathlib

/-!
# Admission webhook: the decision path of `handleMutate`

A shallow embedding of `src/main.go`.  The handler is a straight-line function
over one piece of shared state, the package variable `replicaCounter`.  The
calls it makes into libraries (`io.ReadAll`, the Kubernetes deserializer and
`encoding/json`) are taken as parameters, so every theorem below holds for
whatever those libraries compute.  The Kubernetes API types are reproduced
with the fields the handler reads or writes.

`replicaCounter` is a Go `int`: its increment wraps around, and the embedding
keeps that.  The handler holds the package mutex from its first line to its
return, so runs are embedded as happening one after another; the scheduling of
goroutines is not part of the embedding.  The lines printed to standard output
are left out.
-/

namespace AdmissionWebhook

/-- Byte strings (`[]byte`), written as text. -/
abbrev Bytes := String

/-! ## Kubernetes API types used by the handler -/

/-- The type `corev1.NodeSelectorOperator`, a string type. -/
abbrev NodeSelectorOperator := String

/-- The constant `corev1.NodeSelectorOpIn`. -/
def NodeSelectorOpIn : NodeSelectorOperator := "In"

/-- The type `corev1.NodeSelectorRequirement`. -/
structure NodeSelectorRequirement where
  Key : String
  Operator : NodeSelectorOperator
  Values : List String
  deriving DecidableEq, Repr

/-- The type `corev1.NodeSelectorTerm`. -/
structure NodeSelectorTerm where
  MatchExpressions : List NodeSelectorRequirement := []
  MatchFields : List NodeSelectorRequirement := []
  deriving DecidableEq, Repr

/-- The type `corev1.NodeSelector`. -/
structure NodeSelector where
  NodeSelectorTerms : List NodeSelectorTerm
  deriving DecidableEq, Repr

/-- The type `corev1.PreferredSchedulingTerm`; `Weight` is an `int32`. -/
structure PreferredSchedulingTerm where
  Weight : Int
  Preference : NodeSelectorTerm
  deriving DecidableEq, Repr

/-- The type `corev1.NodeAffinity`; a nil pointer is `none`, a nil slice is `[]`. -/
structure NodeAffinity where
  RequiredDuringSchedulingIgnoredDuringExecution : Option NodeSelector := none
  PreferredDuringSchedulingIgnoredDuringExecution : List PreferredSchedulingTerm := []
  deriving DecidableEq, Repr

/-- The types `corev1.PodAffinity` and `corev1.PodAntiAffinity`: the handler never
builds one, only the two lists of terms are kept, uninterpreted. -/
structure PodAffinityRules where
  RequiredDuringSchedulingIgnoredDuringExecution : List String := []
  PreferredDuringSchedulingIgnoredDuringExecution : List String := []
  deriving DecidableEq, Repr

/-- The type `corev1.Affinity`: three optional pointers. -/
structure Affinity where
  NodeAffinity : Option NodeAffinity := none
  PodAffinity : Option PodAffinityRules := none
  PodAntiAffinity : Option PodAffinityRules := none
  deriving DecidableEq, Repr

/-- The type `corev1.Pod`, as far as this program is concerned: the handler
unmarshals the pod and never reads it. -/
structure Pod where
  Name : String := ""
  Affinity : Option Affinity := none
  deriving DecidableEq, Repr

/-- The type `runtime.RawExtension`: the raw bytes of an embedded object. -/
structure RawExtension where
  Raw : Bytes
  deriving DecidableEq, Repr

/-- The type `admission.AdmissionRequest`: the two fields the handler reads. -/
structure AdmissionRequest where
  UID : String
  Object : RawExtension
  deriving DecidableEq, Repr

/-- The type `admission.PatchType`, a string type. -/
abbrev PatchType := String

/-- The constant `admission.PatchTypeJSONPatch`. -/
def PatchTypeJSONPatch : PatchType := "JSONPatch"

/-- The type `admission.AdmissionResponse`. -/
structure AdmissionResponse where
  UID : String
  Allowed : Bool
  Result : Option String := none
  Patch : Bytes
  PatchType : Option PatchType
  AuditAnnotations : List (String × String) := []
  Warnings : List String := []
  deriving DecidableEq, Repr

/-- The type `admission.AdmissionReview`: type meta, request and response pointers. -/
structure AdmissionReview where
  Kind : String := ""
  APIVersion : String := ""
  Request : Option AdmissionRequest
  Response : Option AdmissionResponse
  deriving DecidableEq, Repr

/-! ## Declarations of `main.go` -/

/-- The struct `patchOperation` (lines 25-29).  `Value` is an `interface{}`; the
only dynamic type the program stores in it is `corev1.Affinity`, and a nil
interface is `none`. -/
structure patchOperation where
  Op : String
  Path : String
  Value : Option Affinity
  deriving DecidableEq, Repr

/-- The package state: `var replicaCounter int` (line 16).  The mutex of line 17
is held for the whole of every handler run and is free between runs. -/
structure ServerState where
  replicaCounter : Int
  deriving DecidableEq, Repr

/-- Width of Go's `int` on the 64-bit targets the webhook is built for. -/
def intBits : Nat := 64

/-- Largest value of an `int`. -/
def maxInt : Int := 9223372036854775807

/-- Smallest value of an `int`. -/
def minInt : Int := -9223372036854775808

/-- Number of distinct `int` values, `2 ^ intBits`. -/
def intModulus : Nat := 18446744073709551616

/-- Two's-complement wrap-around of an integer result into the range of `int`
(Go defines signed overflow this way; it does not trap). -/
def wrapInt (x : Int) : Int :=
  (x - minInt) % (intModulus : Int) + minInt

/-- The incoming `*http.Request`, as the handler sees it: what
`io.ReadAll(r.Body)` returns. -/
structure HttpRequest where
  Body : Except String Bytes

/-- The library calls of the handler, one field per call site. -/
structure Codec where
  /-- Line 41: `deserializer.Decode(body, nil, &admissionReview)`. -/
  decode : Bytes → Except String AdmissionReview
  /-- Line 47: `json.Unmarshal(raw, &pod)`. -/
  unmarshalPod : Bytes → Except String Pod
  /-- Line 104: `json.Marshal(patches)`. -/
  marshalPatches : List patchOperation → Except String Bytes
  /-- Line 121: `json.Marshal(admissionReview)`. -/
  marshalReview : AdmissionReview → Except String Bytes

/-- How a run of the handler ends, as seen by the HTTP client. -/
inductive Outcome where
  /-- The call `http.Error(w, message, code)` followed by `return`. -/
  | httpError (message : String) (code : Nat)
  /-- Lines 128-129: the content type is set and the body written, status 200. -/
  | written (contentType : String) (body : Bytes)
  /-- A run-time panic from dereferencing a nil pointer: nothing is written. -/
  | nilDereference
  deriving DecidableEq, Repr

/-- The HTTP status reported to the client, if any. -/
def Outcome.status : Outcome → Option Nat
  | .httpError _ code => some code
  | .written _ _ => some 200
  | .nilDereference => none

/-- Whether the run ended with the response written (status 200). -/
def Outcome.isWritten : Outcome → Bool
  | .written _ _ => true
  | _ => false

/-- The constant `http.StatusBadRequest`. -/
def StatusBadRequest : Nat := 400

/-- The constant `http.StatusInternalServerError`. -/
def StatusInternalServerError : Nat := 500

/-- One run of `handleMutate`: the package state it leaves, what the client
sees, and the locals `patches` and `admissionResponse` when the run got as far
as assigning them. -/
structure Run where
  state : ServerState
  result : Outcome
  patches : Option (List patchOperation)
  admissionResponse : Option AdmissionResponse
  deriving DecidableEq, Repr

/-- Lines 52-102 of `handleMutate`: the value assigned to `patches`, from the
value of `replicaCounter`. -/
def buildPatches (replicaCounter : Int) : List patchOperation :=
  if replicaCounter = 0 then
    [ { Op := "add"
        Path := "/spec/affinity"
        Value := some
          { NodeAffinity := some
              { RequiredDuringSchedulingIgnoredDuringExecution := some
                  { NodeSelectorTerms :=
                      [ { MatchExpressions :=
                            [ { Key := "node.kubernetes.io/capacity"
                                Operator := NodeSelectorOpIn
                                Values := ["on-demand"] } ] } ] } } } } ]
  else
    [ { Op := "add"
        Path := "/spec/affinity"
        Value := some
          { NodeAffinity := some
              { PreferredDuringSchedulingIgnoredDuringExecution :=
                  [ { Weight := 10
                      Preference :=
                        { MatchExpressions :=
                            [ { Key := "node.kubernetes.io/capacity"
                                Operator := NodeSelectorOpIn
                                Values := ["spot"] } ] } } ] } } } ]

/-- The function `handleMutate` (lines 31-131). -/
def handleMutate (codec : Codec) (st : ServerState) (r : HttpRequest) : Run :=
  match r.Body with
  | .error _ =>
    ⟨st, .httpError "Error reading request body" StatusBadRequest, none, none⟩
  | .ok body =>
    match codec.decode body with
    | .error err =>
      ⟨st, .httpError ("Error decoding admission review: " ++ err) StatusBadRequest,
        none, none⟩
    | .ok admissionReview =>
      -- line 47 reads `admissionReview.Request.Object.Raw` through the pointer
      match admissionReview.Request with
      | none => ⟨st, .nilDereference, none, none⟩
      | some request =>
        match codec.unmarshalPod request.Object.Raw with
        | .error err =>
          ⟨st, .httpError ("Error unmarshaling pod: " ++ err) StatusBadRequest,
            none, none⟩
        | .ok _pod =>
          let patches := buildPatches st.replicaCounter
          match codec.marshalPatches patches with
          | .error err =>
            ⟨st, .httpError ("Error marshaling JSON patch: " ++ err)
              StatusInternalServerError, some patches, none⟩
          | .ok patchBytes =>
            let admissionResponse : AdmissionResponse :=
              { UID := request.UID
                Allowed := true
                Patch := patchBytes
                PatchType := some PatchTypeJSONPatch }
            let admissionReview := { admissionReview with Response := some admissionResponse }
            match codec.marshalReview admissionReview with
            | .error err =>
              ⟨st, .httpError ("Error marshaling admission review response: " ++ err)
                StatusInternalServerError, some patches, some admissionResponse⟩
            | .ok resp =>
              ⟨{ st with replicaCounter := wrapInt (st.replicaCounter + 1) },
                .written "application/json" resp, some patches, some admissionResponse⟩

/-- The state `main` starts serving from (line 134). -/
def fresh : ServerState := { replicaCounter := 0 }

/-- Requests handled one after another: the mutex taken on line 32 and released
by the deferred unlock of line 33 lets one run finish before the next starts,
and the server goes on serving after a run that panicked. -/
def serve (codec : Codec) : ServerState → List HttpRequest → ServerState × List Run
  | st, [] => (st, [])
  | st, r :: rs =>
    let run := handleMutate codec st r
    let rest := serve codec run.state rs
    (rest.1, run :: rest.2)

/-- The runs that ended with status 200, in order. -/
def successes (runs : List Run) : List Run :=
  runs.filter (fun run => run.result.isWritten)

/-! ## Concrete inputs

A small concrete library boundary and a few requests, used to evaluate the
handler on examples. -/

/-- The bodies the sample deserializer accepts, with what they decode to. -/
def sampleReviews : List (Bytes × AdmissionReview) :=
  [ ("review abc-1",
      { Kind := "AdmissionReview", APIVersion := "admission.k8s.io/v1",
        Request := some { UID := "abc-1", Object := { Raw := "pod-a" } },
        Response := none }),
    ("review abc-2",
      { Kind := "AdmissionReview", APIVersion := "admission.k8s.io/v1",
        Request := some { UID := "abc-2", Object := { Raw := "pod-b with affinity" } },
        Response := none }),
    ("review abc-3",
      { Kind := "AdmissionReview", APIVersion := "admission.k8s.io/v1",
        Request := some { UID := "abc-3", Object := { Raw := "" } },
        Response := none }),
    ("{}", { Request := none, Response := none }) ]

/-- A sample rendering of a patch value. -/
def sampleRenderValue : Option Affinity → String
  | none => "null"
  | some a =>
    match a.NodeAffinity with
    | none => "affinity"
    | some na =>
      match na.RequiredDuringSchedulingIgnoredDuringExecution with
      | some _ => "required"
      | none => "preferred"

/-- A sample library boundary: bodies outside `sampleReviews` do not decode, an
empty embedded object does not unmarshal, and both serializations succeed. -/
def sampleCodec : Codec where
  decode body :=
    match sampleReviews.lookup body with
    | some review => .ok review
    | none => .error "couldn't get version/kind; json parse error"
  unmarshalPod raw :=
    if raw = "" then .error "unexpected end of JSON input"
    else .ok { Name := raw,
               Affinity := if raw = "pod-b with affinity" then some {} else none }
  marshalPatches ps :=
    .ok (String.join (ps.map fun p => p.Op ++ " " ++ p.Path ++ " " ++ sampleRenderValue p.Value))
  marshalReview review :=
    .ok ("review " ++ ((review.Response.map fun resp => resp.UID ++ " " ++ resp.Patch).getD "null"))

/-- The sample boundary with a serializer of the patch list that fails. -/
def patchFailingCodec : Codec :=
  { sampleCodec with marshalPatches := fun _ => .error "unsupported type" }

/-- The sample boundary with a serializer of the review that fails. -/
def reviewFailingCodec : Codec :=
  { sampleCodec with marshalReview := fun _ => .error "unsupported type" }

/-- A well-formed request with UID `abc-1`. -/
def requestAbc1 : HttpRequest := { Body := .ok "review abc-1" }

/-- A well-formed request with UID `abc-2`, whose pod carries an affinity. -/
def requestAbc2 : HttpRequest := { Body := .ok "review abc-2" }

/-- A request whose embedded object is empty. -/
def requestEmptyObject : HttpRequest := { Body := .ok "review abc-3" }

/-- A request whose body is not an admission review. -/
def requestNotJson : HttpRequest := { Body := .ok "not json" }

/-- A request whose body cannot be read. -/
def requestUnreadable : HttpRequest := { Body := .error "unexpected EOF" }

/-- A request whose body is the empty JSON object: it decodes, with no request. -/
def requestNoRequest : HttpRequest := { Body := .ok "{}" }

/-- A short session: two well-formed requests with three failing ones between. -/
def sampleSession : List HttpRequest :=
  [requestAbc1, requestNotJson, requestNoRequest, requestUnreadable, requestAbc2, requestAbc1]

/-! ## The two affinity shapes of the specification -/

/-- The Required shape of the specification: a node affinity whose required
selector has one term with one expression, `node.kubernetes.io/capacity In
[on-demand]`. -/
def specRequiredAffinity : Affinity :=
  { NodeAffinity := some
      { RequiredDuringSchedulingIgnoredDuringExecution := some
          { NodeSelectorTerms :=
              [ { MatchExpressions := [ ⟨"node.kubernetes.io/capacity", "In", ["on-demand"]⟩ ],
                  MatchFields := [] } ] },
        PreferredDuringSchedulingIgnoredDuringExecution := [] },
    PodAffinity := none,
    PodAntiAffinity := none }

/-- The Preferred shape of the specification: a node affinity with one preferred
term of weight 10 whose preference has one expression,
`node.kubernetes.io/capacity In [spot]`. -/
def specPreferredAffinity : Affinity :=
  { NodeAffinity := some
      { RequiredDuringSchedulingIgnoredDuringExecution := none,
        PreferredDuringSchedulingIgnoredDuringExecution :=
          [ { Weight := 10,
              Preference :=
                { MatchExpressions := [ ⟨"node.kubernetes.io/capacity", "In", ["spot"]⟩ ],
                  MatchFields := [] } } ] },
    PodAffinity := none,
    PodAntiAffinity := none }

/-- The one-operation patch document of the specification around a value. -/
def specPatch (value : Affinity) : List patchOperation :=
  [ { Op := "add", Path := "/spec/affinity", Value := some value } ]

/-! ## Lemmas on `wrapInt` -/

theorem intModulus_eq :
    intModulus = 2 ^ intBits ∧ maxInt = 2 ^ (intBits - 1) - 1 ∧ minInt = -2 ^ (intBits - 1) := by
  decide

theorem wrapInt_of_inRange (x : Int) (hlo : minInt ≤ x) (hhi : x ≤ maxInt) : wrapInt x = x := by
  simp only [wrapInt, minInt, maxInt, intModulus, Nat.cast_ofNat] at *
  omega

theorem wrapInt_inRange (x : Int) : minInt ≤ wrapInt x ∧ wrapInt x ≤ maxInt := by
  simp only [wrapInt, minInt, maxInt, intModulus, Nat.cast_ofNat] at *
  omega

theorem wrapInt_succ_add (c j : Int) : wrapInt (wrapInt (c + 1) + j) = wrapInt (c + (j + 1)) := by
  simp only [wrapInt, minInt, maxInt, intModulus, Nat.cast_ofNat] at *
  omega

theorem wrapInt_natCast_eq_zero_iff (j : Nat) : wrapInt (j : Int) = 0 ↔ j % intModulus = 0 := by
  simp only [wrapInt, minInt, maxInt, intModulus, Nat.cast_ofNat] at *
  omega

/-! ## Lemmas on one run -/

theorem buildPatches_zero : buildPatches 0 = specPatch specRequiredAffinity := by
  decide

theorem buildPatches_of_ne_zero (c : Int) (h : c ≠ 0) :
    buildPatches c = specPatch specPreferredAffinity := by
  unfold buildPatches
  rw [if_neg h]
  decide

/-- The seven ways a run of the handler can go, each with the run it yields. -/
theorem handleMutate_cases (codec : Codec) (st : ServerState) (r : HttpRequest) :
    (∃ e, r.Body = .error e ∧
      handleMutate codec st r = ⟨st, .httpError "Error reading request body" 400, none, none⟩) ∨
    (∃ body e, r.Body = .ok body ∧ codec.decode body = .error e ∧
      handleMutate codec st r =
        ⟨st, .httpError ("Error decoding admission review: " ++ e) 400, none, none⟩) ∨
    (∃ body review, r.Body = .ok body ∧ codec.decode body = .ok review ∧
      review.Request = none ∧
      handleMutate codec st r = ⟨st, .nilDereference, none, none⟩) ∨
    (∃ body review request e, r.Body = .ok body ∧ codec.decode body = .ok review ∧
      review.Request = some request ∧ codec.unmarshalPod request.Object.Raw = .error e ∧
      handleMutate codec st r =
        ⟨st, .httpError ("Error unmarshaling pod: " ++ e) 400, none, none⟩) ∨
    (∃ body review request pod e, r.Body = .ok body ∧ codec.decode body = .ok review ∧
      review.Request = some request ∧ codec.unmarshalPod request.Object.Raw = .ok pod ∧
      codec.marshalPatches (buildPatches st.replicaCounter) = .error e ∧
      handleMutate codec st r =
        ⟨st, .httpError ("Error marshaling JSON patch: " ++ e) 500,
          some (buildPatches st.replicaCounter), none⟩) ∨
    (∃ body review request pod patchBytes e, r.Body = .ok body ∧
      codec.decode body = .ok review ∧ review.Request = some request ∧
      codec.unmarshalPod request.Object.Raw = .ok pod ∧
      codec.marshalPatches (buildPatches st.replicaCounter) = .ok patchBytes ∧
      codec.marshalReview
        { review with
          Response := some ⟨request.UID, true, none, patchBytes, some "JSONPatch", [], []⟩ }
        = .error e ∧
      handleMutate codec st r =
        ⟨st, .httpError ("Error marshaling admission review response: " ++ e) 500,
          some (buildPatches st.replicaCounter),
          some ⟨request.UID, true, none, patchBytes, some "JSONPatch", [], []⟩⟩) ∨
    (∃ body review request pod patchBytes resp, r.Body = .ok body ∧
      codec.decode body = .ok review ∧ review.Request = some request ∧
      codec.unmarshalPod request.Object.Raw = .ok pod ∧
      codec.marshalPatches (buildPatches st.replicaCounter) = .ok patchBytes ∧
      codec.marshalReview
        { review with
          Response := some ⟨request.UID, true, none, patchBytes, some "JSONPatch", [], []⟩ }
        = .ok resp ∧
      handleMutate codec st r =
        ⟨⟨wrapInt (st.replicaCounter + 1)⟩, .written "application/json" resp,
          some (buildPatches st.replicaCounter),
          some ⟨request.UID, true, none, patchBytes, some "JSONPatch", [], []⟩⟩) := by
  cases h1 : r.Body with
  | error e => exact Or.inl ⟨e, rfl, by simp [handleMutate, h1, StatusBadRequest]⟩
  | ok body =>
    cases h2 : codec.decode body with
    | error e =>
      exact Or.inr (Or.inl ⟨body, e, rfl, h2, by simp [handleMutate, h1, h2, StatusBadRequest]⟩)
    | ok review =>
      cases h3 : review.Request with
      | none =>
        exact Or.inr (Or.inr (Or.inl ⟨body, review, rfl, h2, h3,
          by simp [handleMutate, h1, h2, h3]⟩))
      | some request =>
        cases h4 : codec.unmarshalPod request.Object.Raw with
        | error e =>
          exact Or.inr (Or.inr (Or.inr (Or.inl ⟨body, review, request, e, rfl, h2, h3, h4,
            by simp [handleMutate, h1, h2, h3, h4, StatusBadRequest]⟩)))
        | ok pod =>
          cases h5 : codec.marshalPatches (buildPatches st.replicaCounter) with
          | error e =>
            exact Or.inr (Or.inr (Or.inr (Or.inr (Or.inl ⟨body, review, request, pod, e, rfl,
              h2, h3, h4, rfl,
              by simp [handleMutate, h1, h2, h3, h4, h5, StatusInternalServerError]⟩))))
          | ok patchBytes =>
            cases h6 : codec.marshalReview
                { review with
                  Response := some ⟨request.UID, true, none, patchBytes, some "JSONPatch", [], []⟩ } with
            | error e =>
              have h6r := h6
              rw [h3] at h6r
              exact Or.inr (Or.inr (Or.inr (Or.inr (Or.inr (Or.inl ⟨body, review, request, pod,
                patchBytes, e, rfl, h2, h3, h4, rfl, h6,
                by simp [handleMutate, h1, h2, h3, h4, h5, PatchTypeJSONPatch, h6r,
                  StatusInternalServerError]⟩)))))
            | ok resp =>
              have h6r := h6
              rw [h3] at h6r
              exact Or.inr (Or.inr (Or.inr (Or.inr (Or.inr (Or.inr ⟨body, review, request, pod,
                patchBytes, resp, rfl, h2, h3, h4, rfl, h6,
                by simp [handleMutate, h1, h2, h3, h4, h5, PatchTypeJSONPatch, h6r]⟩)))))

/-- A run that does not write the response leaves the state as it was; a run that
does has incremented the counter once, with wrap-around. -/
theorem handleMutate_state (codec : Codec) (st : ServerState) (r : HttpRequest) :
    (handleMutate codec st r).state =
      if (handleMutate codec st r).result.isWritten = true
      then { replicaCounter := wrapInt (st.replicaCounter + 1) } else st := by
  rcases handleMutate_cases codec st r with ⟨_, _, h⟩ | ⟨_, _, _, _, h⟩ | ⟨_, _, _, _, _, h⟩ |
    ⟨_, _, _, _, _, _, _, _, h⟩ | ⟨_, _, _, _, _, _, _, _, _, _, h⟩ |
    ⟨_, _, _, _, _, _, _, _, _, _, _, _, h⟩ | ⟨_, _, _, _, _, _, _, _, _, _, _, _, h⟩ <;>
  simp [h, Outcome.isWritten]

/-- A run that writes the response built its patches from the counter it found,
and put their serialization into the response it built. -/
theorem handleMutate_patches_of_written (codec : Codec) (st : ServerState) (r : HttpRequest)
    (hw : (handleMutate codec st r).result.isWritten = true) :
    (handleMutate codec st r).patches = some (buildPatches st.replicaCounter) ∧
    ∃ resp, (handleMutate codec st r).admissionResponse = some resp ∧
      codec.marshalPatches (buildPatches st.replicaCounter) = .ok resp.Patch := by
  rcases handleMutate_cases codec st r with ⟨_, _, h⟩ | ⟨_, _, _, _, h⟩ | ⟨_, _, _, _, _, h⟩ |
    ⟨_, _, _, _, _, _, _, _, h⟩ | ⟨_, _, _, _, _, _, _, _, _, _, h⟩ |
    ⟨_, _, _, _, _, _, _, _, _, _, _, _, h⟩ | ⟨_, _, _, _, _, _, _, _, _, _, h5, _, h⟩
  all_goals rw [h] at hw ⊢
  all_goals first
    | exact ⟨rfl, _, rfl, h5⟩
    | simp [Outcome.isWritten] at hw

/-- The run of a request that is read, decoded and whose pod unmarshals, spelled
out by the outcome of the two serializations. -/
theorem handleMutate_wellFormed (codec : Codec) (st : ServerState) (r : HttpRequest)
    (body : Bytes) (review : AdmissionReview) (request : AdmissionRequest) (pod : Pod)
    (hbody : r.Body = .ok body) (hdec : codec.decode body = .ok review)
    (hreq : review.Request = some request)
    (hpod : codec.unmarshalPod request.Object.Raw = .ok pod) :
    handleMutate codec st r =
      match codec.marshalPatches (buildPatches st.replicaCounter) with
      | .error err =>
        ⟨st, .httpError ("Error marshaling JSON patch: " ++ err) 500,
          some (buildPatches st.replicaCounter), none⟩
      | .ok patchBytes =>
        match codec.marshalReview
            { review with Response := some ⟨request.UID, true, none, patchBytes, some "JSONPatch", [], []⟩ } with
        | .error err =>
          ⟨st, .httpError ("Error marshaling admission review response: " ++ err) 500,
            some (buildPatches st.replicaCounter),
            some ⟨request.UID, true, none, patchBytes, some "JSONPatch", [], []⟩⟩
        | .ok resp =>
          ⟨⟨wrapInt (st.replicaCounter + 1)⟩, .written "application/json" resp,
            some (buildPatches st.replicaCounter),
            some ⟨request.UID, true, none, patchBytes, some "JSONPatch", [], []⟩⟩ := by
  unfold handleMutate
  simp only [hbody, hdec, hreq, hpod]
  rfl

/-- A run reports status 200 exactly when it wrote the response. -/
theorem handleMutate_status_200_iff (codec : Codec) (st : ServerState) (r : HttpRequest) :
    (handleMutate codec st r).result.status = some 200 ↔
      (handleMutate codec st r).result.isWritten = true := by
  rcases handleMutate_cases codec st r with ⟨_, _, h⟩ | ⟨_, _, _, _, h⟩ | ⟨_, _, _, _, _, h⟩ |
    ⟨_, _, _, _, _, _, _, _, h⟩ | ⟨_, _, _, _, _, _, _, _, _, _, h⟩ |
    ⟨_, _, _, _, _, _, _, _, _, _, _, _, h⟩ | ⟨_, _, _, _, _, _, _, _, _, _, _, _, h⟩ <;>
  simp [h, Outcome.isWritten, Outcome.status]

/-! ## Lemmas on sequences of runs -/

theorem serve_cons (codec : Codec) (st : ServerState) (r : HttpRequest) (rs : List HttpRequest) :
    serve codec st (r :: rs) =
      ((serve codec (handleMutate codec st r).state rs).1,
        handleMutate codec st r :: (serve codec (handleMutate codec st r).state rs).2) :=
  rfl

theorem successes_cons (run : Run) (runs : List Run) :
    successes (run :: runs) =
      if run.result.isWritten = true then run :: successes runs else successes runs := by
  simp [successes, List.filter_cons]

/-- After a sequence of runs the counter is the initial one plus the number of
runs that wrote their response, wrapped into the range of `int`. -/
theorem serve_counter (codec : Codec) (reqs : List HttpRequest) :
    ∀ st : ServerState, minInt ≤ st.replicaCounter → st.replicaCounter ≤ maxInt →
      (serve codec st reqs).1.replicaCounter =
        wrapInt (st.replicaCounter + ((successes (serve codec st reqs).2).length : Int)) := by
  induction reqs with
  | nil =>
    intro st hlo hhi
    simp [serve, successes, wrapInt_of_inRange _ hlo hhi]
  | cons r rs ih =>
    intro st hlo hhi
    rw [serve_cons, successes_cons]
    have hst := handleMutate_state codec st r
    by_cases hw : (handleMutate codec st r).result.isWritten = true
    · rw [if_pos hw] at hst ⊢
      have hrec := ih (handleMutate codec st r).state
        (by rw [hst]; exact (wrapInt_inRange _).1) (by rw [hst]; exact (wrapInt_inRange _).2)
      rw [hrec, hst, List.length_cons, Nat.cast_succ, wrapInt_succ_add]
    · rw [if_neg hw] at hst ⊢
      rw [hst]
      exact ih st hlo hhi

/-- The run number `j` (from 0) among those that wrote their response built its
patches from the initial counter plus `j`, wrapped into the range of `int`, and
put their serialization into its response. -/
theorem serve_success_patches (codec : Codec) (reqs : List HttpRequest) :
    ∀ st : ServerState, minInt ≤ st.replicaCounter → st.replicaCounter ≤ maxInt →
      ∀ (j : Nat) (run : Run), (successes (serve codec st reqs).2)[j]? = some run →
        run.patches = some (buildPatches (wrapInt (st.replicaCounter + (j : Int)))) ∧
        ∃ resp, run.admissionResponse = some resp ∧
          codec.marshalPatches (buildPatches (wrapInt (st.replicaCounter + (j : Int))))
            = .ok resp.Patch := by
  induction reqs with
  | nil =>
    intro st _ _ j run h
    simp [serve, successes] at h
  | cons r rs ih =>
    intro st hlo hhi j run h
    rw [serve_cons, successes_cons] at h
    have hst := handleMutate_state codec st r
    by_cases hw : (handleMutate codec st r).result.isWritten = true
    · rw [if_pos hw] at hst h
      cases j with
      | zero =>
        simp only [List.getElem?_cons_zero, Option.some.injEq] at h
        have h0 : wrapInt (st.replicaCounter + ((0 : Nat) : Int)) = st.replicaCounter := by
          rw [Nat.cast_zero, add_zero]
          exact wrapInt_of_inRange _ hlo hhi
        rw [← h, h0]
        exact handleMutate_patches_of_written codec st r hw
      | succ k =>
        simp only [List.getElem?_cons_succ] at h
        have hrec := ih (handleMutate codec st r).state
          (by rw [hst]; exact (wrapInt_inRange _).1) (by rw [hst]; exact (wrapInt_inRange _).2)
          k run h
        rw [hst, wrapInt_succ_add] at hrec
        rw [Nat.cast_succ]
        exact hrec
    · rw [if_neg hw] at hst h
      rw [hst] at h
      exact ih st hlo hhi j run h

/-- Handling the same well-formed sample request `n` times in a row: every run
writes its response. -/
theorem successes_serve_replicate_abc1 (n : Nat) :
    ∀ st : ServerState,
      (successes (serve sampleCodec st (List.replicate n requestAbc1)).2).length = n := by
  induction n with
  | zero => intro st; rfl
  | succ k ih =>
    intro st
    rw [List.replicate_succ, serve_cons, successes_cons]
    have hw : (handleMutate sampleCodec st requestAbc1).result.isWritten = true := by
      rw [handleMutate_wellFormed sampleCodec st requestAbc1 "review abc-1"
        { Kind := "AdmissionReview", APIVersion := "admission.k8s.io/v1",
          Request := some { UID := "abc-1", Object := { Raw := "pod-a" } }, Response := none }
        { UID := "abc-1", Object := { Raw := "pod-a" } } { Name := "pod-a" } rfl rfl rfl rfl]
      rfl
    rw [if_pos hw, List.length_cons, ih]

/-! ## Failed decodes -/

/-- Claim C2: a request whose body cannot be read, whose body does not decode as
an admission review, or whose embedded object does not unmarshal as a pod is
answered with HTTP 400 and leaves the package state as it was, so that whatever
request comes next is handled exactly as if the failed one had not arrived. -/
theorem decode_failure_is_400_and_keeps_counter (codec : Codec) (st : ServerState)
    (r : HttpRequest)
    (hfail :
      (∃ e, r.Body = .error e) ∨
      (∃ body e, r.Body = .ok body ∧ codec.decode body = .error e) ∨
      (∃ body review request e, r.Body = .ok body ∧ codec.decode body = .ok review ∧
        review.Request = some request ∧ codec.unmarshalPod request.Object.Raw = .error e)) :
    (handleMutate codec st r).result.status = some 400 ∧
    (handleMutate codec st r).state.replicaCounter = st.replicaCounter ∧
    ∀ next : HttpRequest,
      handleMutate codec (handleMutate codec st r).state next = handleMutate codec st next := by
  have key : (handleMutate codec st r).result.status = some 400 ∧
      (handleMutate codec st r).state = st := by
    rcases hfail with ⟨e, h1⟩ | ⟨body, e, h1, h2⟩ | ⟨body, review, request, e, h1, h2, h3, h4⟩
    · simp [handleMutate, h1, Outcome.status, StatusBadRequest]
    · simp [handleMutate, h1, h2, Outcome.status, StatusBadRequest]
    · simp [handleMutate, h1, h2, h3, h4, Outcome.status, StatusBadRequest]
  refine ⟨key.1, by rw [key.2], fun next => by rw [key.2]⟩

/-- Witness of C2 on the body `not json`, followed by a well-formed request. -/
theorem decode_failure_is_400_and_keeps_counter_witness :
    (handleMutate sampleCodec fresh requestNotJson).result.status = some 400 ∧
    (handleMutate sampleCodec fresh requestNotJson).state.replicaCounter = fresh.replicaCounter ∧
    ∀ next : HttpRequest,
      handleMutate sampleCodec (handleMutate sampleCodec fresh requestNotJson).state next =
        handleMutate sampleCodec fresh next :=
  decode_failure_is_400_and_keeps_counter sampleCodec fresh requestNotJson
    (Or.inr (Or.inl ⟨"not json", "couldn't get version/kind; json parse error", rfl, rfl⟩))

/-! ## The response envelope -/

/-- Claim C3: for a request that is read, decoded and whose pod unmarshals, every
admission response the handler builds carries the UID of the decoded request; a
response is built as soon as the patch list serializes; and a body written with
status 200 is the serialization of the review holding that response. -/
theorem response_uid_echoes_request (codec : Codec) (st : ServerState) (r : HttpRequest)
    (body : Bytes) (review : AdmissionReview) (request : AdmissionRequest) (pod : Pod)
    (hbody : r.Body = .ok body) (hdec : codec.decode body = .ok review)
    (hreq : review.Request = some request)
    (hpod : codec.unmarshalPod request.Object.Raw = .ok pod) :
    (∀ resp, (handleMutate codec st r).admissionResponse = some resp → resp.UID = request.UID) ∧
    (∀ patchBytes, codec.marshalPatches (buildPatches st.replicaCounter) = .ok patchBytes →
      ∃ resp, (handleMutate codec st r).admissionResponse = some resp ∧
        resp.UID = request.UID) ∧
    (∀ contentType out, (handleMutate codec st r).result = .written contentType out →
      ∃ resp, (handleMutate codec st r).admissionResponse = some resp ∧
        resp.UID = request.UID ∧
        codec.marshalReview { review with Response := some resp } = .ok out) := by
  rw [handleMutate_wellFormed codec st r body review request pod hbody hdec hreq hpod]
  cases h5 : codec.marshalPatches (buildPatches st.replicaCounter) with
  | error e => simp
  | ok patchBytes =>
    dsimp only
    cases h6 : codec.marshalReview
        { review with
          Response := some ⟨request.UID, true, none, patchBytes, some "JSONPatch", [], []⟩ } with
    | error e => simp
    | ok out =>
      refine ⟨by simp, by simp, ?_⟩
      intro ct out2 h
      simp only [Outcome.written.injEq] at h
      exact ⟨_, rfl, rfl, by rw [h6, h.2]⟩

/-- Witness of C3: the request with UID `abc-1` handled at counter 7. -/
theorem response_uid_echoes_request_witness :
    (∀ resp, (handleMutate sampleCodec ⟨7⟩ requestAbc1).admissionResponse = some resp →
      resp.UID = "abc-1") ∧
    (∀ patchBytes, sampleCodec.marshalPatches (buildPatches 7) = .ok patchBytes →
      ∃ resp, (handleMutate sampleCodec ⟨7⟩ requestAbc1).admissionResponse = some resp ∧
        resp.UID = "abc-1") ∧
    (∀ contentType out,
      (handleMutate sampleCodec ⟨7⟩ requestAbc1).result = .written contentType out →
      ∃ resp, (handleMutate sampleCodec ⟨7⟩ requestAbc1).admissionResponse = some resp ∧
        resp.UID = "abc-1" ∧
        sampleCodec.marshalReview
          { ({ Kind := "AdmissionReview", APIVersion := "admission.k8s.io/v1",
               Request := some { UID := "abc-1", Object := { Raw := "pod-a" } },
               Response := none } : AdmissionReview) with Response := some resp } = .ok out) :=
  response_uid_echoes_request sampleCodec ⟨7⟩ requestAbc1 "review abc-1"
    { Kind := "AdmissionReview", APIVersion := "admission.k8s.io/v1",
      Request := some { UID := "abc-1", Object := { Raw := "pod-a" } }, Response := none }
    { UID := "abc-1", Object := { Raw := "pod-a" } } { Name := "pod-a" }
    rfl rfl rfl rfl

/-- Claim C4: for a request that is read, decoded and whose pod unmarshals,
whatever the counter and the pod, every admission response the handler builds
has `Allowed = true` and patch type `JSONPatch`; one is built as soon as the
patch list serializes, and a run that ends with status 200 has built one. -/
theorem response_always_allows (codec : Codec) (st : ServerState) (r : HttpRequest)
    (body : Bytes) (review : AdmissionReview) (request : AdmissionRequest) (pod : Pod)
    (hbody : r.Body = .ok body) (hdec : codec.decode body = .ok review)
    (hreq : review.Request = some request)
    (hpod : codec.unmarshalPod request.Object.Raw = .ok pod) :
    (∀ resp, (handleMutate codec st r).admissionResponse = some resp →
      resp.Allowed = true ∧ resp.PatchType = some "JSONPatch" ∧ resp.Result = none) ∧
    (∀ patchBytes, codec.marshalPatches (buildPatches st.replicaCounter) = .ok patchBytes →
      ∃ resp, (handleMutate codec st r).admissionResponse = some resp ∧
        resp.Allowed = true ∧ resp.PatchType = some "JSONPatch" ∧ resp.Patch = patchBytes) ∧
    ((handleMutate codec st r).result.status = some 200 →
      ∃ resp, (handleMutate codec st r).admissionResponse = some resp ∧
        resp.Allowed = true ∧ resp.PatchType = some "JSONPatch") := by
  rw [handleMutate_wellFormed codec st r body review request pod hbody hdec hreq hpod]
  cases h5 : codec.marshalPatches (buildPatches st.replicaCounter) with
  | error e => simp [Outcome.status]
  | ok patchBytes =>
    dsimp only
    cases h6 : codec.marshalReview
        { review with
          Response := some ⟨request.UID, true, none, patchBytes, some "JSONPatch", [], []⟩ } with
    | error e => simp [Outcome.status]
    | ok out => simp [Outcome.status]

/-- Witness of C4: the request with UID `abc-2`, whose pod already carries an
affinity, handled at counter 0. -/
theorem response_always_allows_witness :
    (∀ resp, (handleMutate sampleCodec ⟨0⟩ requestAbc2).admissionResponse = some resp →
      resp.Allowed = true ∧ resp.PatchType = some "JSONPatch" ∧ resp.Result = none) ∧
    (∀ patchBytes, sampleCodec.marshalPatches (buildPatches 0) = .ok patchBytes →
      ∃ resp, (handleMutate sampleCodec ⟨0⟩ requestAbc2).admissionResponse = some resp ∧
        resp.Allowed = true ∧ resp.PatchType = some "JSONPatch" ∧ resp.Patch = patchBytes) ∧
    ((handleMutate sampleCodec ⟨0⟩ requestAbc2).result.status = some 200 →
      ∃ resp, (handleMutate sampleCodec ⟨0⟩ requestAbc2).admissionResponse = some resp ∧
        resp.Allowed = true ∧ resp.PatchType = some "JSONPatch") :=
  response_always_allows sampleCodec ⟨0⟩ requestAbc2 "review abc-2"
    { Kind := "AdmissionReview", APIVersion := "admission.k8s.io/v1",
      Request := some { UID := "abc-2", Object := { Raw := "pod-b with affinity" } },
      Response := none }
    { UID := "abc-2", Object := { Raw := "pod-b with affinity" } }
    { Name := "pod-b with affinity", Affinity := some {} }
    rfl rfl rfl rfl

/-! ## The patch document -/

/-- Claim C5: for every counter value the patch list assigned on lines 52-102 has
exactly one operation, with op `add`, path `/spec/affinity` and an affinity value
whose pod affinity and pod anti-affinity are unset and whose node affinity is
either the Required shape (the required selector alone: one term, one match
expression, no match fields, no preferred terms) or the Preferred shape (one
preferred term alone, of weight 10, with one match expression); and that list
is the one a request that is read, decoded and whose pod unmarshals gets. -/
theorem patch_is_single_add_of_two_shapes (codec : Codec) (st : ServerState)
    (r : HttpRequest) (body : Bytes) (review : AdmissionReview)
    (request : AdmissionRequest) (pod : Pod)
    (hbody : r.Body = .ok body) (hdec : codec.decode body = .ok review)
    (hreq : review.Request = some request)
    (hpod : codec.unmarshalPod request.Object.Raw = .ok pod) :
    ∃ op aff na,
      (handleMutate codec st r).patches = some [op] ∧
      op.Op = "add" ∧ op.Path = "/spec/affinity" ∧ op.Value = some aff ∧
      aff.NodeAffinity = some na ∧ aff.PodAffinity = none ∧ aff.PodAntiAffinity = none ∧
      ((na.RequiredDuringSchedulingIgnoredDuringExecution =
            some ⟨[⟨[⟨"node.kubernetes.io/capacity", "In", ["on-demand"]⟩], []⟩]⟩ ∧
          na.PreferredDuringSchedulingIgnoredDuringExecution = []) ∨
        (na.RequiredDuringSchedulingIgnoredDuringExecution = none ∧
          na.PreferredDuringSchedulingIgnoredDuringExecution =
            [⟨10, ⟨[⟨"node.kubernetes.io/capacity", "In", ["spot"]⟩], []⟩⟩])) := by
  have hp : (handleMutate codec st r).patches = some (buildPatches st.replicaCounter) := by
    rw [handleMutate_wellFormed codec st r body review request pod hbody hdec hreq hpod]
    cases h5 : codec.marshalPatches (buildPatches st.replicaCounter) with
    | error e => rfl
    | ok patchBytes =>
      dsimp only
      cases h6 : codec.marshalReview
          { review with
            Response := some ⟨request.UID, true, none, patchBytes, some "JSONPatch", [], []⟩ } with
      | error e => rfl
      | ok out => rfl
  rw [hp]
  by_cases hc : st.replicaCounter = 0
  · rw [hc, buildPatches_zero]
    exact ⟨_, _, _, rfl, rfl, rfl, rfl, rfl, rfl, rfl, Or.inl ⟨rfl, rfl⟩⟩
  · rw [buildPatches_of_ne_zero _ hc]
    exact ⟨_, _, _, rfl, rfl, rfl, rfl, rfl, rfl, rfl, Or.inr ⟨rfl, rfl⟩⟩

/-- Witness of C5: the request with UID `abc-1` handled at counter 41. -/
theorem patch_is_single_add_of_two_shapes_witness :
    ∃ op aff na,
      (handleMutate sampleCodec ⟨41⟩ requestAbc1).patches = some [op] ∧
      op.Op = "add" ∧ op.Path = "/spec/affinity" ∧ op.Value = some aff ∧
      aff.NodeAffinity = some na ∧ aff.PodAffinity = none ∧ aff.PodAntiAffinity = none ∧
      ((na.RequiredDuringSchedulingIgnoredDuringExecution =
            some ⟨[⟨[⟨"node.kubernetes.io/capacity", "In", ["on-demand"]⟩], []⟩]⟩ ∧
          na.PreferredDuringSchedulingIgnoredDuringExecution = []) ∨
        (na.RequiredDuringSchedulingIgnoredDuringExecution = none ∧
          na.PreferredDuringSchedulingIgnoredDuringExecution =
            [⟨10, ⟨[⟨"node.kubernetes.io/capacity", "In", ["spot"]⟩], []⟩⟩])) :=
  patch_is_single_add_of_two_shapes sampleCodec ⟨41⟩ requestAbc1 "review abc-1"
    { Kind := "AdmissionReview", APIVersion := "admission.k8s.io/v1",
      Request := some { UID := "abc-1", Object := { Raw := "pod-a" } }, Response := none }
    { UID := "abc-1", Object := { Raw := "pod-a" } } { Name := "pod-a" }
    rfl rfl rfl rfl

/-- Claim C10: two requests that are read, decoded and whose pods unmarshal,
whatever their UIDs and pods, handled at counter values that are both zero or
both nonzero, get the same patch list, hence the same serialized patch document
in the responses built. -/
theorem patch_depends_only_on_counter_being_zero (codec : Codec) (st₁ st₂ : ServerState)
    (r₁ r₂ : HttpRequest) (body₁ body₂ : Bytes) (review₁ review₂ : AdmissionReview)
    (request₁ request₂ : AdmissionRequest) (pod₁ pod₂ : Pod)
    (hbody₁ : r₁.Body = .ok body₁) (hdec₁ : codec.decode body₁ = .ok review₁)
    (hreq₁ : review₁.Request = some request₁)
    (hpod₁ : codec.unmarshalPod request₁.Object.Raw = .ok pod₁)
    (hbody₂ : r₂.Body = .ok body₂) (hdec₂ : codec.decode body₂ = .ok review₂)
    (hreq₂ : review₂.Request = some request₂)
    (hpod₂ : codec.unmarshalPod request₂.Object.Raw = .ok pod₂)
    (hzero : st₁.replicaCounter = 0 ↔ st₂.replicaCounter = 0) :
    (∃ ps, (handleMutate codec st₁ r₁).patches = some ps ∧
      (handleMutate codec st₂ r₂).patches = some ps) ∧
    (handleMutate codec st₁ r₁).admissionResponse.map (fun resp => resp.Patch) =
      (handleMutate codec st₂ r₂).admissionResponse.map (fun resp => resp.Patch) ∧
    (∀ patchBytes, codec.marshalPatches (buildPatches st₁.replicaCounter) = .ok patchBytes →
      (handleMutate codec st₁ r₁).admissionResponse.map (fun resp => resp.Patch) =
        some patchBytes) := by
  have hb : buildPatches st₁.replicaCounter = buildPatches st₂.replicaCounter := by
    unfold buildPatches
    by_cases h : st₁.replicaCounter = 0
    · rw [if_pos h, if_pos (hzero.mp h)]
    · rw [if_neg h, if_neg (fun h2 => h (hzero.mpr h2))]
  rw [handleMutate_wellFormed codec st₁ r₁ body₁ review₁ request₁ pod₁ hbody₁ hdec₁ hreq₁ hpod₁,
    handleMutate_wellFormed codec st₂ r₂ body₂ review₂ request₂ pod₂ hbody₂ hdec₂ hreq₂ hpod₂,
    ← hb]
  cases h5 : codec.marshalPatches (buildPatches st₁.replicaCounter) with
  | error e => simp
  | ok patchBytes =>
    dsimp only
    cases h6 : codec.marshalReview
        { review₁ with
          Response := some ⟨request₁.UID, true, none, patchBytes, some "JSONPatch", [], []⟩ } <;>
    cases h7 : codec.marshalReview
        { review₂ with
          Response := some ⟨request₂.UID, true, none, patchBytes, some "JSONPatch", [], []⟩ } <;>
    simp

/-- Witness of C10: UIDs `abc-1` and `abc-2`, different pods (the second one with
an affinity), handled at the nonzero counter values 1 and 2. -/
theorem patch_depends_only_on_counter_being_zero_witness :
    (∃ ps, (handleMutate sampleCodec ⟨1⟩ requestAbc1).patches = some ps ∧
      (handleMutate sampleCodec ⟨2⟩ requestAbc2).patches = some ps) ∧
    (handleMutate sampleCodec ⟨1⟩ requestAbc1).admissionResponse.map (fun resp => resp.Patch) =
      (handleMutate sampleCodec ⟨2⟩ requestAbc2).admissionResponse.map (fun resp => resp.Patch) ∧
    (∀ patchBytes, sampleCodec.marshalPatches (buildPatches 1) = .ok patchBytes →
      (handleMutate sampleCodec ⟨1⟩ requestAbc1).admissionResponse.map (fun resp => resp.Patch) =
        some patchBytes) :=
  patch_depends_only_on_counter_being_zero sampleCodec ⟨1⟩ ⟨2⟩ requestAbc1 requestAbc2
    "review abc-1" "review abc-2"
    { Kind := "AdmissionReview", APIVersion := "admission.k8s.io/v1",
      Request := some { UID := "abc-1", Object := { Raw := "pod-a" } }, Response := none }
    { Kind := "AdmissionReview", APIVersion := "admission.k8s.io/v1",
      Request := some { UID := "abc-2", Object := { Raw := "pod-b with affinity" } },
      Response := none }
    { UID := "abc-1", Object := { Raw := "pod-a" } }
    { UID := "abc-2", Object := { Raw := "pod-b with affinity" } }
    { Name := "pod-a" } { Name := "pod-b with affinity", Affinity := some {} }
    rfl rfl rfl rfl rfl rfl rfl rfl (by decide)

/-! ## The policy over a sequence of requests -/

/-- Claim C1, as amended: starting from the fresh state, over every sequence of
requests handled one after another in which at most 2^64 are decided with
status 200, the first such request gets the patch `add /spec/affinity` with the
Required shape and every later one gets it with the Preferred shape: that is
the patch list of the run, and the patch bytes of its response are the
serialization of that list. -/
theorem first_success_required_later_preferred (codec : Codec) (reqs : List HttpRequest)
    (hbound : (successes (serve codec fresh reqs).2).length ≤ 2 ^ 64) :
    ∀ (j : Nat) (run : Run), (successes (serve codec fresh reqs).2)[j]? = some run →
      run.patches =
        some [⟨"add", "/spec/affinity",
          some (if j = 0 then specRequiredAffinity else specPreferredAffinity)⟩] ∧
      ∃ resp, run.admissionResponse = some resp ∧
        codec.marshalPatches [⟨"add", "/spec/affinity",
          some (if j = 0 then specRequiredAffinity else specPreferredAffinity)⟩]
          = .ok resp.Patch := by
  intro j run h
  have hj : j < (successes (serve codec fresh reqs).2).length := by
    by_contra hge
    rw [List.getElem?_eq_none (Nat.le_of_not_lt hge)] at h
    exact Option.noConfusion h
  have hp := serve_success_patches codec reqs fresh (by decide) (by decide) j run h
  have hb : buildPatches (wrapInt (fresh.replicaCounter + (j : Int))) =
      [⟨"add", "/spec/affinity",
        some (if j = 0 then specRequiredAffinity else specPreferredAffinity)⟩] := by
    by_cases h0 : j = 0
    · subst h0
      rw [if_pos rfl]
      exact buildPatches_zero
    · rw [if_neg h0]
      have hne : wrapInt (fresh.replicaCounter + (j : Int)) ≠ 0 := by
        have hfresh : fresh.replicaCounter + (j : Int) = (j : Int) := by
          simp [fresh]
        rw [hfresh, Ne, wrapInt_natCast_eq_zero_iff]
        have hlt : j < intModulus := by
          have : (2 : Nat) ^ 64 = intModulus := by decide
          omega
        rw [Nat.mod_eq_of_lt hlt]
        exact h0
      exact buildPatches_of_ne_zero _ hne
  rw [hb] at hp
  exact hp

/-- Witness of C1 on the sample session: three requests are decided, the first
with the Required shape and the other two with the Preferred shape. -/
theorem first_success_required_later_preferred_witness :
    (successes (serve sampleCodec fresh sampleSession).2).length = 3 ∧
    ∀ (j : Nat) (run : Run), (successes (serve sampleCodec fresh sampleSession).2)[j]? = some run →
      run.patches =
        some [⟨"add", "/spec/affinity",
          some (if j = 0 then specRequiredAffinity else specPreferredAffinity)⟩] ∧
      ∃ resp, run.admissionResponse = some resp ∧
        sampleCodec.marshalPatches [⟨"add", "/spec/affinity",
          some (if j = 0 then specRequiredAffinity else specPreferredAffinity)⟩]
          = .ok resp.Patch :=
  ⟨by decide, first_success_required_later_preferred sampleCodec sampleSession (by decide)⟩

/-- Counterexample to C1 as stated: `replicaCounter` is a 64-bit `int`, so after
2^64 requests decided with status 200 it is 0 again, and the next request, which
is not the first one, gets the Required shape and not the Preferred one. -/
theorem later_success_required_counterexample :
    ∃ run : Run,
      (successes (serve sampleCodec fresh
        (List.replicate (18446744073709551616 + 1) requestAbc1)).2)[18446744073709551616]?
        = some run ∧
      run.patches = some [⟨"add", "/spec/affinity", some specRequiredAffinity⟩] ∧
      run.patches ≠ some [⟨"add", "/spec/affinity", some specPreferredAffinity⟩] := by
  have hlen := successes_serve_replicate_abc1 (18446744073709551616 + 1) fresh
  have hlt : 18446744073709551616 <
      (successes (serve sampleCodec fresh
        (List.replicate (18446744073709551616 + 1) requestAbc1)).2).length := by
    rw [hlen]
    exact Nat.lt_succ_self _
  refine ⟨_, List.getElem?_eq_getElem hlt, ?_⟩
  have hp := (serve_success_patches sampleCodec
    (List.replicate (18446744073709551616 + 1) requestAbc1) fresh (by decide) (by decide)
    18446744073709551616 _ (List.getElem?_eq_getElem hlt)).1
  have hw : wrapInt (fresh.replicaCounter + ((18446744073709551616 : Nat) : Int)) = 0 := by
    decide
  rw [hw, buildPatches_zero] at hp
  rw [hp]
  exact ⟨rfl, by decide⟩

/-! ## The counter -/

/-- Claim C6, as amended: the counter starts at zero; a run that finds it
non-negative and below the largest `int` leaves it non-negative and not smaller,
one higher when the run ends with status 200 and unchanged otherwise; and after
any sequence of requests from the fresh state in which fewer than 2^63 were
decided with status 200, the counter equals the number of those requests. -/
theorem counter_counts_successes (codec : Codec) (st : ServerState) (r : HttpRequest)
    (reqs : List HttpRequest)
    (hnonneg : 0 ≤ st.replicaCounter) (hbelow : st.replicaCounter < 9223372036854775807)
    (hbound : (successes (serve codec fresh reqs).2).length < 2 ^ 63) :
    fresh.replicaCounter = 0 ∧
    (0 ≤ (handleMutate codec st r).state.replicaCounter ∧
      st.replicaCounter ≤ (handleMutate codec st r).state.replicaCounter ∧
      ((handleMutate codec st r).result.status = some 200 →
        (handleMutate codec st r).state.replicaCounter = st.replicaCounter + 1) ∧
      ((handleMutate codec st r).result.status ≠ some 200 →
        (handleMutate codec st r).state.replicaCounter = st.replicaCounter)) ∧
    (serve codec fresh reqs).1.replicaCounter =
      ((successes (serve codec fresh reqs).2).length : Int) := by
  refine ⟨rfl, ?_, ?_⟩
  · have hst := handleMutate_state codec st r
    have hiff := handleMutate_status_200_iff codec st r
    have hwrap : wrapInt (st.replicaCounter + 1) = st.replicaCounter + 1 :=
      wrapInt_of_inRange _ (by simp only [minInt]; omega) (by simp only [maxInt]; omega)
    by_cases hw : (handleMutate codec st r).result.isWritten = true
    · rw [if_pos hw] at hst
      have hc : (handleMutate codec st r).state.replicaCounter = st.replicaCounter + 1 := by
        rw [hst]
        exact hwrap
      rw [hc]
      exact ⟨by omega, by omega, fun _ => rfl, fun hne => absurd (hiff.mpr hw) hne⟩
    · rw [if_neg hw] at hst
      rw [hst]
      exact ⟨hnonneg, le_refl _, fun h200 => absurd (hiff.mp h200) hw, fun _ => rfl⟩
  · rw [serve_counter codec reqs fresh (by decide) (by decide)]
    have hfresh : fresh.replicaCounter = 0 := rfl
    rw [hfresh, zero_add]
    apply wrapInt_of_inRange
    · simp only [minInt]
      omega
    · simp only [maxInt]
      have : (2 : Nat) ^ 63 = 9223372036854775808 := by decide
      omega

/-- Witness of C6: the request `abc-2` handled at counter 1, and the sample
session, after which the counter is 3. -/
theorem counter_counts_successes_witness :
    (successes (serve sampleCodec fresh sampleSession).2).length = 3 ∧
    (serve sampleCodec fresh sampleSession).1.replicaCounter = 3 ∧
    (handleMutate sampleCodec ⟨1⟩ requestAbc2).state.replicaCounter = 2 ∧
    (fresh.replicaCounter = 0 ∧
      (0 ≤ (handleMutate sampleCodec ⟨1⟩ requestAbc2).state.replicaCounter ∧
        (1 : Int) ≤ (handleMutate sampleCodec ⟨1⟩ requestAbc2).state.replicaCounter ∧
        ((handleMutate sampleCodec ⟨1⟩ requestAbc2).result.status = some 200 →
          (handleMutate sampleCodec ⟨1⟩ requestAbc2).state.replicaCounter = 1 + 1) ∧
        ((handleMutate sampleCodec ⟨1⟩ requestAbc2).result.status ≠ some 200 →
          (handleMutate sampleCodec ⟨1⟩ requestAbc2).state.replicaCounter = 1)) ∧
      (serve sampleCodec fresh sampleSession).1.replicaCounter =
        ((successes (serve sampleCodec fresh sampleSession).2).length : Int)) :=
  ⟨by decide, by decide, by decide,
    counter_counts_successes sampleCodec ⟨1⟩ requestAbc2 sampleSession
      (by decide) (by decide) (by decide)⟩

/-- Counterexample to C6 as stated: a run that finds the counter at the largest
`int` ends with status 200 and leaves it at the smallest `int`; and after 2^63
requests decided with status 200 from the fresh state the counter is -2^63,
negative and not the number of those requests. -/
theorem counter_wraps_counterexample :
    (handleMutate sampleCodec ⟨9223372036854775807⟩ requestAbc1).result.status = some 200 ∧
    (handleMutate sampleCodec ⟨9223372036854775807⟩ requestAbc1).state.replicaCounter =
      -9223372036854775808 ∧
    (successes (serve sampleCodec fresh
      (List.replicate 9223372036854775808 requestAbc1)).2).length = 9223372036854775808 ∧
    (serve sampleCodec fresh
      (List.replicate 9223372036854775808 requestAbc1)).1.replicaCounter =
      -9223372036854775808 := by
  refine ⟨by decide, by decide, successes_serve_replicate_abc1 _ fresh, ?_⟩
  rw [serve_counter sampleCodec _ fresh (by decide) (by decide),
    successes_serve_replicate_abc1 _ fresh]
  decide

/-! ## Serialization failures and missing requests -/

/-- Claim C8, as amended: the counter is advanced on line 126, after both
serializations have succeeded.  A run that ends with status 500 is one where
the request was read, decoded and its pod unmarshalled and then the patch list
or the review (the decoded one, with the response built) failed to serialize,
and it leaves the counter as it found it.  A run where both serializations
succeed writes the serialized review and leaves the counter one higher (with
the wrap-around of `int` at its largest value).  And a run that changes the
counter at all is such a run. -/
theorem counter_advanced_only_after_serialization (codec : Codec) (st : ServerState)
    (r : HttpRequest) :
    ((handleMutate codec st r).result.status = some 500 →
      (handleMutate codec st r).state.replicaCounter = st.replicaCounter ∧
      ∃ body review request pod,
        r.Body = .ok body ∧ codec.decode body = .ok review ∧
        review.Request = some request ∧ codec.unmarshalPod request.Object.Raw = .ok pod ∧
        ((∃ e, codec.marshalPatches (buildPatches st.replicaCounter) = .error e) ∨
          (∃ patchBytes e,
            codec.marshalPatches (buildPatches st.replicaCounter) = .ok patchBytes ∧
            codec.marshalReview
              { review with
                Response :=
                  some ⟨request.UID, true, none, patchBytes, some "JSONPatch", [], []⟩ }
              = .error e))) ∧
    (∀ body review request pod patchBytes out,
      r.Body = .ok body → codec.decode body = .ok review →
      review.Request = some request → codec.unmarshalPod request.Object.Raw = .ok pod →
      codec.marshalPatches (buildPatches st.replicaCounter) = .ok patchBytes →
      codec.marshalReview
        { review with
          Response := some ⟨request.UID, true, none, patchBytes, some "JSONPatch", [], []⟩ }
        = .ok out →
      (handleMutate codec st r).result = .written "application/json" out ∧
      (handleMutate codec st r).state.replicaCounter = wrapInt (st.replicaCounter + 1) ∧
      (-9223372036854775808 ≤ st.replicaCounter → st.replicaCounter < 9223372036854775807 →
        (handleMutate codec st r).state.replicaCounter = st.replicaCounter + 1)) ∧
    ((handleMutate codec st r).state.replicaCounter ≠ st.replicaCounter →
      ∃ body review request pod patchBytes out,
        r.Body = .ok body ∧ codec.decode body = .ok review ∧
        review.Request = some request ∧ codec.unmarshalPod request.Object.Raw = .ok pod ∧
        codec.marshalPatches (buildPatches st.replicaCounter) = .ok patchBytes ∧
        codec.marshalReview
          { review with
            Response := some ⟨request.UID, true, none, patchBytes, some "JSONPatch", [], []⟩ }
          = .ok out ∧
        (handleMutate codec st r).result = .written "application/json" out ∧
        (handleMutate codec st r).state.replicaCounter = wrapInt (st.replicaCounter + 1)) := by
  refine ⟨?_, ?_, ?_⟩
  · intro h500
    rcases handleMutate_cases codec st r with ⟨_, _, h⟩ | ⟨_, _, _, _, h⟩ | ⟨_, _, _, _, _, h⟩ |
      ⟨_, _, _, _, _, _, _, _, h⟩ | ⟨body, review, request, pod, e, h1, h2, h3, h4, h5, h⟩ |
      ⟨body, review, request, pod, pb, e, h1, h2, h3, h4, h5, h6, h⟩ |
      ⟨_, _, _, _, _, _, _, _, _, _, _, _, h⟩
    all_goals rw [h] at h500 ⊢
    all_goals simp only [Outcome.status] at h500
    all_goals first
      | exact absurd h500 (by decide)
      | exact ⟨rfl, body, review, request, pod, h1, h2, h3, h4, Or.inl ⟨e, h5⟩⟩
      | exact ⟨rfl, body, review, request, pod, h1, h2, h3, h4, Or.inr ⟨pb, e, h5, h6⟩⟩
  · intro body review request pod patchBytes out h1 h2 h3 h4 h5 h6
    have hrun := handleMutate_wellFormed codec st r body review request pod h1 h2 h3 h4
    rw [h5] at hrun
    dsimp only at hrun
    rw [h6] at hrun
    dsimp only at hrun
    rw [hrun]
    refine ⟨rfl, rfl, fun hlo hhi => ?_⟩
    exact wrapInt_of_inRange _ (by simp only [minInt]; omega) (by simp only [maxInt]; omega)
  · intro hne
    rcases handleMutate_cases codec st r with ⟨_, _, h⟩ | ⟨_, _, _, _, h⟩ | ⟨_, _, _, _, _, h⟩ |
      ⟨_, _, _, _, _, _, _, _, h⟩ | ⟨_, _, _, _, _, _, _, _, _, _, h⟩ |
      ⟨_, _, _, _, _, _, _, _, _, _, _, _, h⟩ |
      ⟨body, review, request, pod, pb, out, h1, h2, h3, h4, h5, h6, h⟩
    all_goals rw [h] at hne ⊢
    all_goals first
      | exact ⟨body, review, request, pod, pb, out, h1, h2, h3, h4, h5, h6, rfl, rfl⟩
      | exact absurd rfl hne

/-- Witness of C8 at counter 5: with a review serializer that fails the run ends
with status 500 and the counter stays at 5; with serializers that succeed the
run writes the review and the counter is 6. -/
theorem counter_advanced_only_after_serialization_witness :
    (handleMutate reviewFailingCodec ⟨5⟩ requestAbc1).result.status = some 500 ∧
    (handleMutate reviewFailingCodec ⟨5⟩ requestAbc1).state.replicaCounter = 5 ∧
    (handleMutate sampleCodec ⟨5⟩ requestAbc1).result =
      .written "application/json" "review abc-1 add /spec/affinity preferred" ∧
    (handleMutate sampleCodec ⟨5⟩ requestAbc1).state.replicaCounter = 5 + 1 :=
  ⟨by decide,
    ((counter_advanced_only_after_serialization reviewFailingCodec ⟨5⟩ requestAbc1).1
      (by decide)).1,
    ((counter_advanced_only_after_serialization sampleCodec ⟨5⟩ requestAbc1).2.1
      "review abc-1"
      { Kind := "AdmissionReview", APIVersion := "admission.k8s.io/v1",
        Request := some { UID := "abc-1", Object := { Raw := "pod-a" } }, Response := none }
      { UID := "abc-1", Object := { Raw := "pod-a" } } { Name := "pod-a" }
      "add /spec/affinity preferred" "review abc-1 add /spec/affinity preferred"
      rfl rfl rfl rfl rfl rfl).1,
    ((counter_advanced_only_after_serialization sampleCodec ⟨5⟩ requestAbc1).2.1
      "review abc-1"
      { Kind := "AdmissionReview", APIVersion := "admission.k8s.io/v1",
        Request := some { UID := "abc-1", Object := { Raw := "pod-a" } }, Response := none }
      { UID := "abc-1", Object := { Raw := "pod-a" } } { Name := "pod-a" }
      "add /spec/affinity preferred" "review abc-1 add /spec/affinity preferred"
      rfl rfl rfl rfl rfl rfl).2.2 (by decide) (by decide)⟩

/-- Counterexample to C8 as stated: with a serializer that fails, for the patch
list or for the review, the run that finds the counter at 5 ends with status
500 and leaves it at 5, not at 6. -/
theorem serialization_failure_advances_counter_counterexample :
    (handleMutate reviewFailingCodec ⟨5⟩ requestAbc1).result =
      .httpError "Error marshaling admission review response: unsupported type" 500 ∧
    (handleMutate reviewFailingCodec ⟨5⟩ requestAbc1).state.replicaCounter = 5 ∧
    (handleMutate reviewFailingCodec ⟨5⟩ requestAbc1).state.replicaCounter ≠ 5 + 1 ∧
    (handleMutate patchFailingCodec ⟨5⟩ requestAbc1).result =
      .httpError "Error marshaling JSON patch: unsupported type" 500 ∧
    (handleMutate patchFailingCodec ⟨5⟩ requestAbc1).state.replicaCounter = 5 := by
  decide

/-- Claim C9, where the code departs from it: a body that decodes to a review
with no request makes line 47 dereference a nil pointer; the run panics, no HTTP
status is reported, and the state is as before. -/
theorem missing_request_panics (codec : Codec) (st : ServerState) (r : HttpRequest)
    (body : Bytes) (review : AdmissionReview)
    (hbody : r.Body = .ok body) (hdec : codec.decode body = .ok review)
    (hreq : review.Request = none) :
    (handleMutate codec st r).result = .nilDereference ∧
    (handleMutate codec st r).result.status = none ∧
    (handleMutate codec st r).state = st := by
  simp [handleMutate, hbody, hdec, hreq, Outcome.status]

/-- Witness of C9's failing input: the body `{}` on the fresh state. -/
theorem missing_request_panics_witness :
    (handleMutate sampleCodec fresh requestNoRequest).result = .nilDereference ∧
    (handleMutate sampleCodec fresh requestNoRequest).result.status = none ∧
    (handleMutate sampleCodec fresh requestNoRequest).state = fresh :=
  missing_request_panics sampleCodec fresh requestNoRequest "{}"
    { Request := none, Response := none } rfl rfl rfl

end AdmissionWebhook
